import Mathlib

/-!
Verification development for the product matching & validation engine of the
`a-patricia-corpo-qdrant` repository.

The Python sources under `src/app/services/` are shallowly embedded below:
pure helpers become Lean functions, prices are modelled as rationals (`ℚ`),
Python `Optional` values become `Option`, Python exceptions become
`Except String`.  Every definition is translated from the source code, not
from the prose specification; the one definition that follows the spec's
words instead is clearly marked as such.
-/

set_option maxRecDepth 4096

namespace Patricia

/-! ## Basic Python-style string utilities -/

/-- Python whitespace set used by `str.strip` and regex `\s` (ASCII part). -/
def pyIsWs (c : Char) : Bool :=
  c = ' ' || c = '\t' || c = '\n' || c = '\r' || c = '\x0b' || c = '\x0c'

/-- Python `str.strip()` (ASCII whitespace model). -/
def pyStrip (s : String) : String :=
  ⟨(s.data.dropWhile pyIsWs).reverse.dropWhile pyIsWs |>.reverse⟩

/-- Python `str.upper()` (ASCII case folding model). -/
def pyUpper (s : String) : String :=
  ⟨s.data.map Char.toUpper⟩

/-- Python `str.lower()` (ASCII case folding model). -/
def pyLower (s : String) : String :=
  ⟨s.data.map Char.toLower⟩

/-- Worker for `re.sub(r'\s+', ' ', s)`: collapse each run of whitespace
characters to a single space.  The flag records whether we are inside a
whitespace run whose replacement space was already emitted. -/
def collapseWsAux : Bool → List Char → List Char
  | _, [] => []
  | inRun, c :: cs =>
    if pyIsWs c then
      if inRun then collapseWsAux true cs
      else ' ' :: collapseWsAux true cs
    else
      c :: collapseWsAux false cs

/-- Python `re.sub(r'\s+', ' ', s)`. -/
def collapseWs (s : String) : String := ⟨collapseWsAux false s.data⟩

/-- Python's built-in `abs` on rationals, written so that it evaluates by
kernel reduction. -/
def ratAbs (q : ℚ) : ℚ := if q < 0 then -q else q

/-! ## Price comparison (`price_validator.py`, `_compare_prices` /
`_prices_match`)

`settings.PRICE_TOLERANCE_PERCENT` defaults to `5.0`; the validator stores
`self.tolerance = settings.PRICE_TOLERANCE_PERCENT / 100`. -/

def PRICE_TOLERANCE_PERCENT : ℚ := 5

def defaultTolerance : ℚ := PRICE_TOLERANCE_PERCENT / 100

/-- Embedding of `PriceValidator._prices_match`. -/
def pricesMatch (tolerance precio_imagen precio_sistema : ℚ) : Bool :=
  if precio_sistema = 0 then
    decide (precio_imagen = 0)
  else
    decide (ratAbs (precio_imagen - precio_sistema) / precio_sistema ≤ tolerance)

/-- The dictionary returned by `PriceValidator._compare_prices`. -/
structure CompareOutcome where
  validacion : String
  diferencia : Option ℚ
  status : String
  deriving Repr, DecidableEq

/-- Embedding of `PriceValidator._compare_prices`. -/
def comparePrices (tolerance : ℚ) (precio_imagen precio_sistema : Option ℚ) :
    CompareOutcome :=
  match precio_imagen, precio_sistema with
  | some pi, some ps =>
    let diferencia := ps - pi
    if pricesMatch tolerance pi ps then
      { validacion := "✅", diferencia := some diferencia, status := "MATCH" }
    else
      { validacion := "❌", diferencia := some diferencia, status := "PRICE_DIFF" }
  | _, _ =>
    { validacion := "⚠️", diferencia := none, status := "NO_PRICE" }

/-! ## Validation engine (`price_validator.py`, `validate_products`) and the
batch search capability (`qdrant_service.py`, `search_products_batch`)

The external vector index (Qdrant client + embedding model) is abstracted as
a per-query function.  `search_products_batch` loops over the queries; a
raised exception in any iteration propagates, which we model with `Except`. -/

/-- Embedding of `qdrant_service.ProductMatch` (the fields the validation
path reads). -/
structure ProductMatch where
  nombre : String
  precio : ℚ
  score : ℚ
  deriving Repr, DecidableEq

/-- A product dictionary coming out of the vision stage, as read by
`validate_products` (`p.get("nombre")`, `p.get("precio")`).  A missing
`nombre` key is `none`. -/
structure ExtractedProduct where
  nombre : Option String
  precio : Option ℚ
  deriving Repr, DecidableEq

/-- Embedding of `price_validator.ValidationResult`. -/
structure ValidationResult where
  producto_imagen : String
  precio_imagen : Option ℚ
  producto_sistema : Option String
  precio_sistema : Option ℚ
  validacion : String
  diferencia : Option ℚ
  status : String
  match_score : Option ℚ
  deriving Repr, DecidableEq

/-- `search_products_batch`: build the `query -> matches` dictionary by
looping over the queries in order; the first failing capability call aborts
the whole loop (there is no per-query `try`/`except` in the source). -/
def searchBatchE (search : String → Except String (List ProductMatch)) :
    List String → Except String (List (String × List ProductMatch))
  | [] => Except.ok []
  | q :: rest =>
    match search q with
    | Except.error e => Except.error e
    | Except.ok hits =>
      match searchBatchE search rest with
      | Except.error e => Except.error e
      | Except.ok tail => Except.ok ((q, hits) :: tail)

/-- Python `dict` lookup `search_results.get(key, [])`; later insertions win,
so we look the key up from the back of the association list. -/
def tableGet (table : List (String × List ProductMatch)) (key : String) :
    List ProductMatch :=
  (table.reverse.lookup key).getD []

/-- The per-product body of the `for producto in productos_imagen` loop in
`validate_products`.  `results` is the batch-search dictionary lookup. -/
def mkResult (tolerance : ℚ) (results : String → List ProductMatch)
    (p : ExtractedProduct) : ValidationResult :=
  let nombre_imagen := p.nombre.getD "DESCONOCIDO"
  match results nombre_imagen with
  | [] =>
    { producto_imagen := nombre_imagen
      precio_imagen := p.precio
      producto_sistema := none
      precio_sistema := none
      validacion := "⚠️"
      diferencia := none
      status := "NOT_FOUND"
      match_score := none }
  | best_match :: _ =>
    let outcome := comparePrices tolerance p.precio (some best_match.precio)
    { producto_imagen := nombre_imagen
      precio_imagen := p.precio
      producto_sistema := some best_match.nombre
      precio_sistema := some best_match.precio
      validacion := outcome.validacion
      diferencia := outcome.diferencia
      status := outcome.status
      match_score := some best_match.score }

/-- The dictionary built by `search_products_batch` for a pure (never
failing) capability, as a lookup function: queries that were issued map to
their hits, anything else to `[]`. -/
def lookupResults (search : String → List ProductMatch)
    (queries : List String) (key : String) : List ProductMatch :=
  if key ∈ queries then search key else []

/-- `validate_products` for a pure search capability: one result per input
product, in input order. -/
def validateProductsPure (tolerance : ℚ) (search : String → List ProductMatch)
    (productos : List ExtractedProduct) : List ValidationResult :=
  let queries := productos.map (fun p => p.nombre.getD "")
  productos.map (mkResult tolerance (lookupResults search queries))

/-- Embedding of `validate_products` with the capability's failure behaviour
made explicit: the batch search happens first and any capability exception
propagates out of the whole call. -/
def validateProducts (tolerance : ℚ)
    (search : String → Except String (List ProductMatch))
    (productos : List ExtractedProduct) :
    Except String (List ValidationResult) :=
  match searchBatchE search (productos.map (fun p => p.nombre.getD "")) with
  | Except.error e => Except.error e
  | Except.ok table =>
    Except.ok (productos.map (mkResult tolerance (tableGet table)))

/-! ## JSON values

Python values produced by `json.loads`, as consumed by `vision.py`. -/

inductive Json where
  | null
  | bool (flag : Bool)
  | num (value : ℚ)
  | str (text : String)
  | arr (items : List Json)
  | obj (pairs : List (String × Json))
  deriving Repr

/-- A flattened raw product record as appended by
`vision._parse_gemini_response` / `_extract_products_regex`. -/
structure RawProduct where
  nombre : String
  precio : Option ℚ
  presentacion : Json
  categoria : Json
  observaciones : Json
  deriving Repr

/-- Case-insensitive literal match (regex `IGNORECASE`, ASCII folding). -/
def matchLitCI : List Char → List Char → Option (List Char)
  | [], cs => some cs
  | _ :: _, [] => none
  | p :: ps, c :: cs =>
    if c.toLower = p.toLower then matchLitCI ps cs else none

/-- Regex `\s*`. -/
def wsStar (cs : List Char) : List Char := cs.dropWhile pyIsWs

/-- Case-sensitive literal match. -/
def matchLitCS : List Char → List Char → Option (List Char)
  | [], cs => some cs
  | _ :: _, [] => none
  | p :: ps, c :: cs => if c = p then matchLitCS ps cs else none

def digitsVal (ds : List Char) : Nat :=
  ds.foldl (fun acc d => 10 * acc + (d.toNat - 48)) 0

/-! ## A JSON parser modelling `json.loads`

Strict JSON as accepted by Python's `json.loads` (leading/trailing
whitespace allowed, no trailing commas, `0`-prefixed integers rejected,
strings must be terminated); parsing failure — Python's
`json.JSONDecodeError` — is `none`.  Numbers are built with `mkRat` so that
everything evaluates by kernel reduction. -/

def jsonWsChar (c : Char) : Bool :=
  c = ' ' || c = '\t' || c = '\n' || c = '\r'

def skipJWs (cs : List Char) : List Char := cs.dropWhile jsonWsChar

def hexVal (c : Char) : Option Nat :=
  let n := c.toNat
  if 48 ≤ n ∧ n ≤ 57 then some (n - 48)
  else if 97 ≤ n ∧ n ≤ 102 then some (n - 87)
  else if 65 ≤ n ∧ n ≤ 70 then some (n - 55)
  else none

/-- Parse a JSON string body (the opening quote already consumed),
returning the content and the suffix after the closing quote. -/
def parseStrBody : List Char → Option (List Char × List Char)
  | [] => none
  | '"' :: rest => some ([], rest)
  | '\\' :: e :: rest =>
    match e with
    | '"' => (parseStrBody rest).map (fun p => ('"' :: p.1, p.2))
    | '\\' => (parseStrBody rest).map (fun p => ('\\' :: p.1, p.2))
    | '/' => (parseStrBody rest).map (fun p => ('/' :: p.1, p.2))
    | 'b' => (parseStrBody rest).map (fun p => ('\x08' :: p.1, p.2))
    | 'f' => (parseStrBody rest).map (fun p => ('\x0c' :: p.1, p.2))
    | 'n' => (parseStrBody rest).map (fun p => ('\n' :: p.1, p.2))
    | 'r' => (parseStrBody rest).map (fun p => ('\r' :: p.1, p.2))
    | 't' => (parseStrBody rest).map (fun p => ('\t' :: p.1, p.2))
    | 'u' =>
      match rest with
      | h1 :: h2 :: h3 :: h4 :: rest' =>
        match hexVal h1, hexVal h2, hexVal h3, hexVal h4 with
        | some v1, some v2, some v3, some v4 =>
          (parseStrBody rest').map
            (fun p =>
              (Char.ofNat (((v1 * 16 + v2) * 16 + v3) * 16 + v4) :: p.1, p.2))
        | _, _, _, _ => none
      | _ => none
    | _ => none
  | c :: rest => (parseStrBody rest).map (fun p => (c :: p.1, p.2))

/-- The numeric value `±mant · 10^shift` as a rational, built without
rational arithmetic. -/
def numValue (neg : Bool) (mant : Nat) (shift : Int) : ℚ :=
  let m : Int := if neg then -(mant : Int) else (mant : Int)
  if 0 ≤ shift then mkRat (m * ((10 ^ shift.toNat : Nat) : Int)) 1
  else mkRat m (10 ^ (-shift).toNat)

def buildNum (neg : Bool) (intDs fracDs : List Char) (e : Int) : ℚ :=
  numValue neg (digitsVal (intDs ++ fracDs)) (e - fracDs.length)

/-- `(\.\d+)?` of the JSON number grammar. -/
def parseFrac : List Char → Option (List Char × List Char)
  | '.' :: rest =>
    (match rest.span Char.isDigit with
     | ([], _) => none
     | (ds, rest') => some (ds, rest'))
  | cs => some ([], cs)

/-- `([eE][+-]?\d+)?` of the JSON number grammar. -/
def parseExp : List Char → Option (Int × List Char)
  | [] => some (0, [])
  | c :: rest =>
    if c = 'e' || c = 'E' then
      let (esign, rest1) : Int × List Char :=
        match rest with
        | '+' :: r => (1, r)
        | '-' :: r => (-1, r)
        | _ => (1, rest)
      match rest1.span Char.isDigit with
      | ([], _) => none
      | (ds, rest') => some (esign * (digitsVal ds : Int), rest')
    else some (0, c :: rest)

/-- The optional leading minus sign of a JSON number. -/
def splitSign : List Char → Bool × List Char
  | '-' :: r => (true, r)
  | cs => (false, cs)

/-- The integer part `0|[1-9]\d*` of a JSON number (no leading zeros). -/
def parseIntPart : List Char → Option (List Char × List Char)
  | [] => none
  | c :: rest =>
    if c = '0' then some ([c], rest)
    else if c.isDigit then
      match rest.span Char.isDigit with
      | (ds, rest') => some (c :: ds, rest')
    else none

/-- A JSON number token: `-?(0|[1-9]\d*)(\.\d+)?([eE][+-]?\d+)?`. -/
def parseNumTok (cs : List Char) : Option (ℚ × List Char) := do
  let sgn := splitSign cs
  let (intDs, cs2) ← parseIntPart sgn.2
  let (fracDs, cs3) ← parseFrac cs2
  let (e, cs4) ← parseExp cs3
  some (buildNum sgn.1 intDs fracDs e, cs4)

mutual

/-- Parse one JSON value (with leading whitespace). -/
def parseVal : Nat → List Char → Option (Json × List Char)
  | 0, _ => none
  | fuel + 1, cs =>
    match skipJWs cs with
    | [] => none
    | '"' :: rest =>
      (parseStrBody rest).map (fun p => (Json.str ⟨p.1⟩, p.2))
    | '[' :: rest =>
      (match skipJWs rest with
       | ']' :: r => some (Json.arr [], r)
       | rest' => parseArrItems fuel rest' [])
    | '\x7b' :: rest =>
      (match skipJWs rest with
       | '\x7d' :: r => some (Json.obj [], r)
       | rest' => parseObjItems fuel rest' [])
    | 't' :: rest =>
      (matchLitCS "rue".data rest).map (fun r => (Json.bool true, r))
    | 'f' :: rest =>
      (matchLitCS "alse".data rest).map (fun r => (Json.bool false, r))
    | 'n' :: rest =>
      (matchLitCS "ull".data rest).map (fun r => (Json.null, r))
    | c :: rest =>
      if c = '-' || c.isDigit then
        (parseNumTok (c :: rest)).map (fun p => (Json.num p.1, p.2))
      else none

/-- Parse the items of a non-empty array (after `[`). -/
def parseArrItems : Nat → List Char → List Json → Option (Json × List Char)
  | 0, _, _ => none
  | fuel + 1, cs, acc =>
    match parseVal fuel cs with
    | none => none
    | some (v, rest) =>
      match skipJWs rest with
      | ',' :: r => parseArrItems fuel r (v :: acc)
      | ']' :: r => some (Json.arr (v :: acc).reverse, r)
      | _ => none

/-- Parse the entries of a non-empty object (after `{`). -/
def parseObjItems : Nat → List Char →
    List (String × Json) → Option (Json × List Char)
  | 0, _, _ => none
  | fuel + 1, cs, acc =>
    match skipJWs cs with
    | '"' :: rest =>
      (match parseStrBody rest with
       | none => none
       | some (key, r1) =>
         match skipJWs r1 with
         | ':' :: r3 =>
           (match parseVal fuel r3 with
            | none => none
            | some (v, r4) =>
              match skipJWs r4 with
              | ',' :: r6 => parseObjItems fuel r6 ((⟨key⟩, v) :: acc)
              | '\x7d' :: r6 => some (Json.obj ((⟨key⟩, v) :: acc).reverse, r6)
              | _ => none)
         | _ => none)
    | _ => none

end

/-- Model of `json.loads`: one value, then only whitespace. -/
def jsonLoads (s : String) : Option Json :=
  match parseVal (2 * s.data.length + 2) s.data with
  | some (v, rest) => if (skipJWs rest).isEmpty then some v else none
  | none => none

/-! ## Structured-extraction recovery (`vision.py`,
`_parse_gemini_response`, `_repair_truncated_json`,
`_extract_products_regex`, `_parse_price`) -/

/-- The code-fence characters, kept out of source literals. -/
def fenceChars : List Char := "```".data

/-- The two `re.sub` fence strips plus the final `.strip()` at the top of
`_parse_gemini_response`.  `re.sub(r'^```json\s*', '', ·)` fires only when
the text literally starts with the fence; `re.sub(r'\s*```$', '', ·)` fires
when the text ends in the fence or in the fence followed by one final
newline (`$` also matches before a trailing newline); the `\s*` and
leftover newline are subsumed by the final strip. -/
def cleanResponseText (text : String) : String :=
  let cs1 :=
    match matchLitCS "```json".data text.data with
    | some rest => rest.dropWhile pyIsWs
    | none => text.data
  let r := cs1.reverse
  let cs2 :=
    if r.take 3 = fenceChars then ((r.drop 3).dropWhile pyIsWs).reverse
    else if r.take 4 = '\n' :: fenceChars then
      ('\n' :: ((r.drop 4).dropWhile pyIsWs)).reverse
    else cs1
  pyStrip ⟨cs2⟩

/-- `json.loads` as called inside `_repair_truncated_json`: the function
returns the parsed value, so a parsed JSON `null` becomes Python `None`,
which the caller cannot distinguish from failure. -/
def repairLoads (s : String) : Option Json :=
  match jsonLoads s with
  | some Json.null => none
  | r => r

def rstripPy (cs : List Char) : List Char :=
  (cs.reverse.dropWhile pyIsWs).reverse

def rstripComma (cs : List Char) : List Char :=
  (cs.reverse.dropWhile (fun c => c = ',')).reverse

/-- `text.rfind('},')`: index of the last `}` immediately followed by a
comma. -/
def rfindBC : List Char → Nat → Option Nat → Option Nat
  | [], _, best => best
  | '\x7d' :: ',' :: rest, i, _ => rfindBC (',' :: rest) (i + 1) (some i)
  | _ :: rest, i, best => rfindBC rest (i + 1) best

def rfindBraceComma (cs : List Char) : Option Nat := rfindBC cs 0 none

/-- Embedding of `vision._repair_truncated_json`: bracket-balance repair,
then truncation at the last complete object terminator. -/
def repairTruncatedJson (text : String) : Option Json :=
  let cs := text.data
  let openBrackets : Int := (cs.count '[' : Int) - (cs.count ']' : Int)
  let openBraces : Int := (cs.count '\x7b' : Int) - (cs.count '\x7d' : Int)
  let repaired := rstripComma (rstripPy cs)
      ++ List.replicate openBraces.toNat '\x7d'
      ++ List.replicate openBrackets.toNat ']'
  match repairLoads ⟨repaired⟩ with
  | some d => some d
  | none =>
    match rfindBraceComma cs with
    | some i =>
      if i > 0 then
        let truncated := cs.take (i + 1)
        let ob : Int := (truncated.count '[' : Int) - (truncated.count ']' : Int)
        let obr : Int := (truncated.count '\x7b' : Int) - (truncated.count '\x7d' : Int)
        repairLoads ⟨truncated ++ List.replicate (max 0 obr).toNat '\x7d'
          ++ List.replicate (max 0 ob).toNat ']'⟩
      else none
    | none => none

/-- Python `dict.get` on a parsed object: with duplicate keys the later
binding wins, as in `json.loads`. -/
def objFind (fields : List (String × Json)) (key : String) : Option Json :=
  fields.reverse.lookup key

def objHas (fields : List (String × Json)) (key : String) : Bool :=
  (objFind fields key).isSome

/-- Python truthiness of a JSON value. -/
def isFalsy : Json → Bool
  | Json.null => true
  | Json.bool b => !b
  | Json.num q => decide (q = 0)
  | Json.str s => s.data.isEmpty
  | Json.arr xs => xs.isEmpty
  | Json.obj kvs => kvs.isEmpty

/-- Python iteration over a JSON value: lists yield elements, strings yield
characters, dicts yield their keys; `None`/numbers/booleans raise
`TypeError`. -/
def pyIter : Json → Except String (List Json)
  | Json.arr xs => Except.ok xs
  | Json.str s => Except.ok (s.data.map (fun c => Json.str ⟨[c]⟩))
  | Json.obj kvs => Except.ok (kvs.map (fun kv => Json.str kv.1))
  | _ => Except.error "TypeError"

/-- Rendering of a number by Python `str` (model; never inspected by a
claim, only its non-emptiness could matter and the `nombre` filter already
guarantees that). -/
def numToStr (q : ℚ) : String :=
  if q.den = 1 then toString q.num else toString q.num ++ "/" ++ toString q.den

/-- Python `str(·)` on a JSON value (container rendering abbreviated; no
claim inspects it). -/
def pyStr : Json → String
  | Json.null => "None"
  | Json.bool b => if b then "True" else "False"
  | Json.num q => numToStr q
  | Json.str s => s
  | Json.arr _ => "[...]"
  | Json.obj _ => "\x7b...\x7d"

/-- Python `float()` on a string that, after `_parse_price`'s cleaning,
contains only digits and dots: accepted iff there is at most one dot and at
least one digit. -/
def pyFloatOfCleaned (cs : List Char) : Option ℚ :=
  if cs.isEmpty then none
  else
    match cs.span Char.isDigit with
    | (intDs, rest) =>
      match rest with
      | [] => some (mkRat (digitsVal intDs : Int) 1)
      | '.' :: rest2 =>
        (match rest2.span Char.isDigit with
         | (fracDs, rest3) =>
           if rest3.isEmpty && !(intDs.isEmpty && fracDs.isEmpty) then
             some (mkRat (digitsVal (intDs ++ fracDs) : Int) (10 ^ fracDs.length))
           else none)
      | _ => none

/-- Embedding of `vision._parse_price`.  Note `isinstance(True, int)` holds
in Python, so booleans coerce to `1.0`/`0.0`. -/
def parsePrice : Json → Option ℚ
  | Json.null => none
  | Json.str s =>
    if s = "No visible" then none
    else if s = "null" then none
    else pyFloatOfCleaned (s.data.filter (fun c => c.isDigit || c = '.'))
  | Json.bool b => some (if b then 1 else 0)
  | Json.num q => some q
  | _ => none

/-- The body of the inner `for producto in productos` loop of
`_parse_gemini_response`: non-dict entries are skipped, the name is
upper-cased and stripped, and empty/`"NULL"` names are dropped. -/
def flattenProduct (categoria : Json) (producto : Json) : List RawProduct :=
  match producto with
  | Json.obj pkvs =>
    let nombre := pyStrip (pyUpper (pyStr ((objFind pkvs "nombre").getD (Json.str ""))))
    if nombre ≠ "" ∧ nombre ≠ "NULL" then
      [{ nombre := nombre
         precio := parsePrice ((objFind pkvs "precio").getD Json.null)
         presentacion := (objFind pkvs "presentacion").getD (Json.str "")
         categoria := categoria
         observaciones := (objFind pkvs "observaciones").getD Json.null }]
    else []
  | _ => []

def flattenProducts (categoria : Json) : List Json → List RawProduct
  | [] => []
  | p :: rest => flattenProduct categoria p ++ flattenProducts categoria rest

/-- The body of the outer `for seccion in data` loop: a non-dict section is
skipped; `productos = seccion.get("productos", [])`, replaced by
`[seccion]` when falsy and a `nombre` key is present; iterating a
non-iterable `productos` raises `TypeError`. -/
def flattenSection (seccion : Json) : Except String (List RawProduct) :=
  match seccion with
  | Json.obj kvs =>
    let categoria := (objFind kvs "categoria").getD (Json.str "General")
    let productos0 := (objFind kvs "productos").getD (Json.arr [])
    let productos :=
      if isFalsy productos0 && objHas kvs "nombre" then Json.arr [seccion]
      else productos0
    (match pyIter productos with
     | Except.error e => Except.error e
     | Except.ok items => Except.ok (flattenProducts categoria items))
  | _ => Except.ok []

def flattenAll : List Json → Except String (List RawProduct)
  | [] => Except.ok []
  | s :: rest =>
    match flattenSection s with
    | Except.error e => Except.error e
    | Except.ok ps =>
      match flattenAll rest with
      | Except.error e => Except.error e
      | Except.ok qs => Except.ok (ps ++ qs)

/-- `if not isinstance(data, list): data = [data]`. -/
def toDataList : Json → List Json
  | Json.arr xs => xs
  | d => [d]

/-- The lazy `[^}]*?` bridge of the regex
`"nombre"\s*:\s*"([^"]+)"[^}]*?"precio"\s*:\s*(\d+(?:\.\d+)?)`: advance to
the first `"precio"` literal not preceded by a `}`. -/
def lazyToPrecio : List Char → Option (List Char)
  | [] => none
  | c :: cs =>
    match matchLitCI "\"precio\"".data (c :: cs) with
    | some rest => some rest
    | none => if c = '\x7d' then none else lazyToPrecio cs

/-- The captured number `(\d+(?:\.\d+)?)` (greedy, optional fraction needs
at least one digit). -/
def numCapture (cs : List Char) : Option (ℚ × List Char) :=
  match cs.span Char.isDigit with
  | ([], _) => none
  | (ds, rest) =>
    match rest with
    | '.' :: rest2 =>
      (match rest2.span Char.isDigit with
       | ([], _) => some (mkRat (digitsVal ds : Int) 1, rest)
       | (fs, rest3) =>
         some (mkRat (digitsVal (ds ++ fs) : Int) (10 ^ fs.length), rest3))
    | _ => some (mkRat (digitsVal ds : Int) 1, rest)

/-- One attempt of the product regex at the current position
(`re.IGNORECASE`). -/
def nombrePrecioAt (cs : List Char) : Option (String × ℚ × List Char) := do
  let cs ← matchLitCI "\"nombre\"".data cs
  let cs := wsStar cs
  let cs ← match cs with
    | ':' :: r => some r
    | _ => none
  let cs := wsStar cs
  let cs ← match cs with
    | '"' :: r => some r
    | _ => none
  match cs.span (fun c => c ≠ '"') with
  | ([], _) => none
  | (content, rest) =>
    match rest with
    | '"' :: rest2 => do
      let rest3 ← lazyToPrecio rest2
      let rest3 := wsStar rest3
      let rest4 ← match rest3 with
        | ':' :: r => some r
        | _ => none
      let rest4 := wsStar rest4
      let (q, rest5) ← numCapture rest4
      some (⟨content⟩, q, rest5)
    | _ => none

/-- `re.findall` driver for the product regex: leftmost non-overlapping
matches, scanning position by position. -/
def findallNombrePrecio : Nat → List Char → List (String × ℚ)
  | 0, _ => []
  | _ + 1, [] => []
  | fuel + 1, c :: cs =>
    match nombrePrecioAt (c :: cs) with
    | some (n, q, rest) => (n, q) :: findallNombrePrecio fuel rest
    | none => findallNombrePrecio fuel cs

/-- Embedding of `vision._extract_products_regex`.  Note: unlike the JSON
flattening path, the captured name is upper-cased and stripped but *not*
filtered for emptiness. -/
def extractProductsRegex (text : String) : List RawProduct :=
  (findallNombrePrecio (text.data.length + 1) text.data).map
    (fun np =>
      { nombre := pyStrip (pyUpper np.1)
        precio := some np.2
        presentacion := Json.str ""
        categoria := Json.str "General"
        observaciones := Json.null })

/-- Embedding of `vision._parse_gemini_response`: fence cleaning, direct
parse, truncation repair, regex fallback, then category flattening.  A
direct parse yielding JSON `null` hits `if data is None: return []`; a
repair yielding `null` is indistinguishable from repair failure in Python
and therefore falls back to the regex path (see `repairLoads`). -/
def parseGeminiResponse (text : String) : Except String (List RawProduct) :=
  let t := cleanResponseText text
  match jsonLoads t with
  | some Json.null => Except.ok []
  | some d => flattenAll (toDataList d)
  | none =>
    match repairTruncatedJson t with
    | some d => flattenAll (toDataList d)
    | none => Except.ok (extractProductsRegex t)

/-! ## Deduplication (`vision._deduplicate_products`,
`price_validator._deduplicate_results`) -/

/-- The name test in `_deduplicate_products`:
`if not nombre or nombre in ("NULL", "NONE", "NO VISIBLE", "NO LEGIBLE")`.
Note that it is applied to the upper-cased, stripped name *before* whitespace
runs are collapsed. -/
def sentinelName (nombre : String) : Bool :=
  nombre == "" || nombre == "NULL" || nombre == "NONE" ||
    nombre == "NO VISIBLE" || nombre == "NO LEGIBLE"

/-- The upper-cased, stripped name computed at the top of the
`_deduplicate_products` loop body. -/
def prodNorm (p : RawProduct) : String := pyStrip (pyUpper p.nombre)

/-- The dedup key: `re.sub(r'\s+', ' ', nombre)`. -/
def prodKey (p : RawProduct) : String := collapseWs (prodNorm p)

/-- Loop of `_deduplicate_products`, with the `seen` set as an accumulator. -/
def dedupProductsAux (seen : List String) : List RawProduct → List RawProduct
  | [] => []
  | p :: rest =>
    let nombre := pyStrip (pyUpper p.nombre)
    if sentinelName nombre then
      dedupProductsAux seen rest
    else
      let key := collapseWs nombre
      if key ∈ seen then
        dedupProductsAux seen rest
      else
        p :: dedupProductsAux (key :: seen) rest

/-- Embedding of `vision._deduplicate_products`. -/
def dedupProducts (products : List RawProduct) : List RawProduct :=
  dedupProductsAux [] products

/-- Modelled from the spec: the "canonical name" of §4.2 — upper-cased,
trimmed, internal whitespace runs collapsed to one space.  Used only to
compare the spec's claimed drop condition against the code's actual one. -/
def specCanonicalName (s : String) : String := collapseWs (pyStrip (pyUpper s))

/-- The display key of `_deduplicate_results`:
`v.producto_sistema if v.producto_sistema else v.producto_imagen` (Python
truthiness: `None` and `""` both fall back to the image name), then
`key.upper().strip() if key else ""`. -/
def resultKey (v : ValidationResult) : String :=
  let key0 :=
    match v.producto_sistema with
    | some s => if s ≠ "" then s else v.producto_imagen
    | none => v.producto_imagen
  if key0 ≠ "" then pyStrip (pyUpper key0) else ""

/-- The skip test in `_deduplicate_results`:
`if not key or key == "NULL" or key == "NONE"`. -/
def resultKeySkip (key : String) : Bool :=
  key == "" || key == "NULL" || key == "NONE"

/-- Loop of `_deduplicate_results`, with the `seen` set as an accumulator. -/
def dedupResultsAux (seen : List String) :
    List ValidationResult → List ValidationResult
  | [] => []
  | v :: rest =>
    let key := resultKey v
    if resultKeySkip key then
      dedupResultsAux seen rest
    else if key ∈ seen then
      dedupResultsAux seen rest
    else
      v :: dedupResultsAux (key :: seen) rest

/-- Embedding of `price_validator._deduplicate_results`. -/
def dedupResults (validaciones : List ValidationResult) :
    List ValidationResult :=
  dedupResultsAux [] validaciones

/-- Valid JSON whose single section carries a numeric `productos` field:
iterating it raises `TypeError` in Python. -/
def c3TypeErrorInput : String := "[\x7b\"categoria\":\"A\",\"productos\":5\x7d]"

/-- Unparseable text on which the regex fallback captures a
whitespace-only name, yielding a record whose stripped name is empty. -/
def c3EmptyNameInput : String := "\"nombre\": \" \", \"precio\": 5"

/-- The truncated model output of the spec's recovery fixture (cut
mid-token inside the second product). -/
def c4Input : String :=
  "[\x7b\"categoria\":\"A\",\"productos\":[\x7b\"nombre\":\"X\",\"precio\":1.0\x7d,\x7b\"nombre\":\"Y\",\"preci"

/-- The complete record recovered from `c4Input`. -/
def c4XRecord : RawProduct :=
  { nombre := "X", precio := some 1, presentacion := Json.str "",
    categoria := Json.str "General", observaciones := Json.null }

/-- A record whose canonical (collapsed) name is the sentinel
`"NO VISIBLE"` but whose pre-collapse name (two internal spaces) is not. -/
def c6Record : RawProduct :=
  { nombre := "NO  VISIBLE", precio := none, presentacion := Json.str "",
    categoria := Json.str "General", observaciones := Json.null }

/-- A plainly named record used to instantiate universally quantified
deduplication theorems. -/
def plainRecord : RawProduct :=
  { nombre := "HARINA", precio := some 20, presentacion := Json.str "",
    categoria := Json.str "General", observaciones := Json.null }

/-! ## Intent parser (`slack_handler.py`, `_extract_tienda_id`,
`_is_greeting_or_help`, `_extract_search_term`)

The regular expressions of the source are hand-compiled to recursive
matchers over `List Char`.  Each matcher takes the suffix starting at the
attempted position and returns the suffix after the match on success;
`re.search`/`re.sub` semantics (leftmost match, scan position by position,
non-overlapping continuation) are implemented by the scanning drivers.
Case folding models Python's on the ASCII range. -/

def litCI (pat : String) (cs : List Char) : Option (List Char) :=
  matchLitCI pat.data cs

/-- Regex `\s+`. -/
def wsPlus (cs : List Char) : Option (List Char) :=
  match cs with
  | c :: rest => if pyIsWs c then some (rest.dropWhile pyIsWs) else none
  | [] => none

/-- Regex `\d+` (greedy). -/
def digitsPlus (cs : List Char) : Option (List Char) :=
  match cs with
  | c :: rest => if c.isDigit then some (rest.dropWhile Char.isDigit) else none
  | [] => none

/-- Regex word character (`\w`, ASCII model). -/
def isWordChar (c : Char) : Bool := c.isAlphanum || c = '_'

/-- Word boundary after a match: end of text or a non-word character. -/
def boundaryAfter (cs : List Char) : Bool :=
  match cs with
  | [] => true
  | c :: _ => !isWordChar c

/-- `\s*[#:]?\s*(\d+)` — the tail of the keyword store-id patterns,
returning the captured integer. -/
def storeIdTail (cs : List Char) : Option Nat :=
  let cs := wsStar cs
  match cs with
  | c :: rest =>
    if c = '#' || c = ':' then
      match (wsStar rest).span Char.isDigit with
      | ([], _) => none
      | (ds, _) => some (digitsVal ds)
    else
      match cs.span Char.isDigit with
      | ([], _) => none
      | (ds, _) => some (digitsVal ds)
  | [] => none

/-- `re.search(kw + r'\s*[#:]?\s*(\d+)', text)` on lower-cased text. -/
def searchKw (kw : String) : List Char → Option Nat
  | [] => none
  | c :: cs =>
    match matchLitCS kw.data (c :: cs) with
    | some rest =>
      match storeIdTail rest with
      | some n => some n
      | none => searchKw kw cs
    | none => searchKw kw cs

/-- `\d{3,4}` then `\b` (greedy: four digits preferred). -/
def fourDigitsB : List Char → Option Nat
  | d1 :: d2 :: d3 :: d4 :: rest =>
    if d1.isDigit && d2.isDigit && d3.isDigit && d4.isDigit
        && boundaryAfter rest then
      some (digitsVal [d1, d2, d3, d4])
    else none
  | _ => none

def threeDigitsB : List Char → Option Nat
  | d1 :: d2 :: d3 :: rest =>
    if d1.isDigit && d2.isDigit && d3.isDigit && boundaryAfter rest then
      some (digitsVal [d1, d2, d3])
    else none
  | _ => none

/-- `re.search(r'#(\d{3,4})\b', text)`. -/
def searchHash : List Char → Option Nat
  | [] => none
  | '#' :: cs =>
    (match fourDigitsB cs with
     | some n => some n
     | none =>
       match threeDigitsB cs with
       | some n => some n
       | none => searchHash cs)
  | _ :: cs => searchHash cs

/-- `re.search(r'\b(\d{3,4})\b', text)`; the flag records whether the
previous character was a word character. -/
def searchBare (prevWord : Bool) : List Char → Option Nat
  | [] => none
  | c :: cs =>
    if !prevWord then
      match fourDigitsB (c :: cs) with
      | some n => some n
      | none =>
        match threeDigitsB (c :: cs) with
        | some n => some n
        | none => searchBare (isWordChar c) cs
    else searchBare (isWordChar c) cs

/-- `if 1 <= tienda_id <= 9999: return tienda_id` — an out-of-range capture
falls through to the next pattern. -/
def checkRange (captured : Option Nat) : Option Nat :=
  captured.bind (fun tid => if 1 ≤ tid ∧ tid ≤ 9999 then some tid else none)

/-- Embedding of `SlackHandler._extract_tienda_id`: the ordered pattern
cascade over the lower-cased text. -/
def extractTiendaId (text : String) : Option Nat :=
  if text.data.isEmpty then none
  else
    let cs := (pyLower text).data
    match checkRange (searchKw "tienda" cs) with
    | some n => some n
    | none =>
      match checkRange (searchKw "store" cs) with
      | some n => some n
      | none =>
        match checkRange (searchKw "sucursal" cs) with
        | some n => some n
        | none =>
          match checkRange (searchHash cs) with
          | some n => some n
          | none => checkRange (searchBare false cs)

/-- Substring containment (`g in text_lower`). -/
def containsSub (needle : List Char) : List Char → Bool
  | [] => needle.isEmpty
  | c :: cs => (matchLitCS needle (c :: cs)).isSome || containsSub needle cs

/-- The greeting/help vocabulary of `_is_greeting_or_help`. -/
def greetingsList : List String :=
  ["hola", "hello", "hi", "hey", "buenos días", "buenas tardes",
   "buenas noches", "ayuda", "help", "qué puedes", "que puedes",
   "para qué sirves", "para que sirves", "qué haces", "que haces",
   "cómo funciona", "como funciona"]

/-- Embedding of `SlackHandler._is_greeting_or_help`. -/
def isGreetingOrHelp (text : String) : Bool :=
  let lower := (pyLower text).data
  if (extractTiendaId text).isSome then false
  else
    let is_greeting := greetingsList.any (fun g => containsSub g.data lower)
    if pyStrip text = "?" then true else is_greeting

/-- The character of the original text preceding the continuation suffix
`rest` — used to evaluate `\b` at the position where scanning resumes after
a removed match. -/
def lastConsumed (orig rest : List Char) (dflt : Char) : Char :=
  orig.getD (orig.length - rest.length - 1) dflt

/-- `re.sub(pattern, '', s)` driver: scan left to right, delete each
leftmost non-overlapping match, resume after it.  `m` receives the previous
original character (for `\b`) and the current suffix. -/
def reSubDelAux (m : Option Char → List Char → Option (List Char)) :
    Nat → Option Char → List Char → List Char
  | 0, _, cs => cs
  | _ + 1, _, [] => []
  | fuel + 1, prev, c :: cs =>
    match m prev (c :: cs) with
    | some rest =>
      reSubDelAux m fuel (some (lastConsumed (c :: cs) rest c)) rest
    | none => c :: reSubDelAux m fuel (some c) cs

def reSubDel (m : Option Char → List Char → Option (List Char))
    (s : String) : String :=
  ⟨reSubDelAux m (s.data.length + 1) none s.data⟩

/-- `<@[A-Z0-9]+>` (case-sensitive). -/
def mentionM (_ : Option Char) (cs : List Char) : Option (List Char) :=
  match cs with
  | '<' :: '@' :: rest =>
    match rest.span (fun c => c.isUpper || c.isDigit) with
    | ([], _) => none
    | (_, rest') =>
      match rest' with
      | '>' :: r => some r
      | _ => none
  | _ => none

/-- `de\s+la\s+` — the optional prefix group of the store-reference
patterns. -/
def deLaM (cs : List Char) : Option (List Char) := do
  let cs ← litCI "de" cs
  let cs ← wsPlus cs
  let cs ← litCI "la" cs
  wsPlus cs

/-- `kw\s*[#:]?\s*\d+`, returning the suffix after the digits. -/
def storeRefCore (kw : String) (cs : List Char) : Option (List Char) := do
  let cs1 ← litCI kw cs
  let cs2 := wsStar cs1
  match cs2 with
  | c :: rest =>
    if c = '#' || c = ':' then digitsPlus (wsStar rest)
    else digitsPlus cs2
  | [] => none

/-- `(de\s+la\s+)?kw\s*[#:]?\s*\d+` (store-reference removal). -/
def storeRefM (kw : String) (_ : Option Char) (cs : List Char) :
    Option (List Char) :=
  match (do let cs' ← deLaM cs; storeRefCore kw cs') with
  | some r => some r
  | none => storeRefCore kw cs

/-- `#\d+`. -/
def hashNumM (_ : Option Char) (cs : List Char) : Option (List Char) :=
  match cs with
  | '#' :: rest => digitsPlus rest
  | _ => none

/-- Alternation of literals, first match wins, with a continuation (needed
because e.g. `(el|la|...)\s+` backtracks into later alternatives when the
continuation fails). -/
def tryAltsThen (alts : List String)
    (k : List Char → Option (List Char)) (cs : List Char) :
    Option (List Char) :=
  match alts with
  | [] => none
  | a :: rest =>
    match (do let r ← litCI a cs; k r) with
    | some r => some r
    | none => tryAltsThen rest k cs

/-- `(a1|a2|...)?\s*`: the trailing optional article group of the filler
patterns; the continuation `\s*` is total, so the first matching
alternative wins and a failing group is skipped. -/
def optAltsWs (alts : List String) (cs : List Char) : List Char :=
  match tryAltsThen alts (fun r => some r) cs with
  | some r => wsStar r
  | none => wsStar cs

/-- Optional group with mandatory continuation (`(saber\s+)?`-style):
commit if the whole group matches, skip otherwise. -/
def optGroup (m : List Char → Option (List Char)) (cs : List Char) :
    List Char :=
  (m cs).getD cs

/-- `tr[aá]eme` / `cu[aá]l`: the `[aá]` character class (ASCII-folded). -/
def classAA (cs : List Char) : Option (List Char) :=
  match cs with
  | c :: rest => if c.toLower = 'a' || c = 'á' then some rest else none
  | [] => none

def traemeLit (cs : List Char) : Option (List Char) := do
  let cs ← litCI "tr" cs
  let cs ← classAA cs
  litCI "eme" cs

def cualLit (cs : List Char) : Option (List Char) := do
  let cs ← litCI "cu" cs
  let cs ← classAA cs
  litCI "l" cs

def arts4 : List String := ["la", "el", "los", "las"]

/-- `tr[aá]eme\s+el\s+precio\s+de\s+(la|el|los|las)?\s*` -/
def f1M (_ : Option Char) (cs : List Char) : Option (List Char) := do
  let cs ← traemeLit cs
  let cs ← wsPlus cs
  let cs ← litCI "el" cs
  let cs ← wsPlus cs
  let cs ← litCI "precio" cs
  let cs ← wsPlus cs
  let cs ← litCI "de" cs
  let cs ← wsPlus cs
  some (optAltsWs arts4 cs)

/-- `cu[aá]l\s+es\s+el\s+precio\s+de\s+(la|el|los|las)?\s*` -/
def f2M (_ : Option Char) (cs : List Char) : Option (List Char) := do
  let cs ← cualLit cs
  let cs ← wsPlus cs
  let cs ← litCI "es" cs
  let cs ← wsPlus cs
  let cs ← litCI "el" cs
  let cs ← wsPlus cs
  let cs ← litCI "precio" cs
  let cs ← wsPlus cs
  let cs ← litCI "de" cs
  let cs ← wsPlus cs
  some (optAltsWs arts4 cs)

/-- `dame\s+el\s+precio\s+de\s+(la|el|los|las)?\s*` -/
def f3M (_ : Option Char) (cs : List Char) : Option (List Char) := do
  let cs ← litCI "dame" cs
  let cs ← wsPlus cs
  let cs ← litCI "el" cs
  let cs ← wsPlus cs
  let cs ← litCI "precio" cs
  let cs ← wsPlus cs
  let cs ← litCI "de" cs
  let cs ← wsPlus cs
  some (optAltsWs arts4 cs)

/-- `quiero\s+(saber\s+)?(el\s+)?precio\s+de\s+(la|el|los|las)?\s*` -/
def f4M (_ : Option Char) (cs : List Char) : Option (List Char) := do
  let cs ← litCI "quiero" cs
  let cs ← wsPlus cs
  let cs := optGroup (fun c => do let c ← litCI "saber" c; wsPlus c) cs
  let cs := optGroup (fun c => do let c ← litCI "el" c; wsPlus c) cs
  let cs ← litCI "precio" cs
  let cs ← wsPlus cs
  let cs ← litCI "de" cs
  let cs ← wsPlus cs
  some (optAltsWs arts4 cs)

/-- `consulta\s+(el\s+)?precio\s+de\s+(la|el|los|las)?\s*` -/
def f5M (_ : Option Char) (cs : List Char) : Option (List Char) := do
  let cs ← litCI "consulta" cs
  let cs ← wsPlus cs
  let cs := optGroup (fun c => do let c ← litCI "el" c; wsPlus c) cs
  let cs ← litCI "precio" cs
  let cs ← wsPlus cs
  let cs ← litCI "de" cs
  let cs ← wsPlus cs
  some (optAltsWs arts4 cs)

/-- `busca(r)?` -/
def buscaLit (cs : List Char) : Option (List Char) := do
  let cs ← litCI "busca" cs
  match cs with
  | c :: rest => if c.toLower = 'r' then some rest else some cs
  | [] => some cs

/-- `busca(r)?\s+(el\s+)?precio\s+de\s+(la|el|los|las)?\s*` -/
def f6M (_ : Option Char) (cs : List Char) : Option (List Char) := do
  let cs ← buscaLit cs
  let cs ← wsPlus cs
  let cs := optGroup (fun c => do let c ← litCI "el" c; wsPlus c) cs
  let cs ← litCI "precio" cs
  let cs ← wsPlus cs
  let cs ← litCI "de" cs
  let cs ← wsPlus cs
  some (optAltsWs arts4 cs)

/-- `precio\s+de\s+(la|el|los|las)?\s*` -/
def f7M (_ : Option Char) (cs : List Char) : Option (List Char) := do
  let cs ← litCI "precio" cs
  let cs ← wsPlus cs
  let cs ← litCI "de" cs
  let cs ← wsPlus cs
  some (optAltsWs arts4 cs)

/-- `tr[aá]eme\s+(el|la|los|las)?\s*` -/
def f8M (_ : Option Char) (cs : List Char) : Option (List Char) := do
  let cs ← traemeLit cs
  let cs ← wsPlus cs
  some (optAltsWs ["el", "la", "los", "las"] cs)

/-- `cu[aá]l\s+es\s+(el|la)?\s*` -/
def f9M (_ : Option Char) (cs : List Char) : Option (List Char) := do
  let cs ← cualLit cs
  let cs ← wsPlus cs
  let cs ← litCI "es" cs
  let cs ← wsPlus cs
  some (optAltsWs ["el", "la"] cs)

/-- `dame\s+(el|la|los|las)?\s*` -/
def f10M (_ : Option Char) (cs : List Char) : Option (List Char) := do
  let cs ← litCI "dame" cs
  let cs ← wsPlus cs
  some (optAltsWs ["el", "la", "los", "las"] cs)

/-- `busca(r)?\s*` -/
def f11M (_ : Option Char) (cs : List Char) : Option (List Char) := do
  let cs ← buscaLit cs
  some (wsStar cs)

/-- `precio\s+de(l)?\s*` -/
def f12M (_ : Option Char) (cs : List Char) : Option (List Char) := do
  let cs ← litCI "precio" cs
  let cs ← wsPlus cs
  let cs ← litCI "de" cs
  let cs :=
    match cs with
    | c :: rest => if c.toLower = 'l' then rest else cs
    | [] => cs
  some (wsStar cs)

def boundaryBefore (prev : Option Char) : Bool :=
  match prev with
  | none => true
  | some c => !isWordChar c

/-- `\bprecio\b` -/
def f13M (prev : Option Char) (cs : List Char) : Option (List Char) := do
  if boundaryBefore prev then
    let cs ← litCI "precio" cs
    if boundaryAfter cs then some cs else none
  else none

/-- `\bcuanto\s+cuesta\b` -/
def f14M (prev : Option Char) (cs : List Char) : Option (List Char) := do
  if boundaryBefore prev then
    let cs ← litCI "cuanto" cs
    let cs ← wsPlus cs
    let cs ← litCI "cuesta" cs
    if boundaryAfter cs then some cs else none
  else none

/-- `\bcuánto\s+cuesta\b` -/
def f15M (prev : Option Char) (cs : List Char) : Option (List Char) := do
  if boundaryBefore prev then
    let cs ← litCI "cuánto" cs
    let cs ← wsPlus cs
    let cs ← litCI "cuesta" cs
    if boundaryAfter cs then some cs else none
  else none

/-- The `frases_remover` list, in source order. -/
def frasesRemover :
    List (Option Char → List Char → Option (List Char)) :=
  [f1M, f2M, f3M, f4M, f5M, f6M, f7M, f8M, f9M, f10M, f11M, f12M, f13M,
   f14M, f15M]

/-- `^(el|la|los|las|de|del)\s+` (leading-article removal, anchored). -/
def stripLeadArt (s : String) : String :=
  match tryAltsThen ["el", "la", "los", "las", "de", "del"] wsPlus s.data with
  | some r => ⟨r⟩
  | none => s

/-- The full cleaning pipeline of `_extract_search_term`: mention removal,
store-reference removals, filler-phrase removals, whitespace collapsing,
strip, leading-article strip, strip. -/
def searchTermResidue (text : String) : String :=
  let c := text
  let c := reSubDel mentionM c
  let c := reSubDel (storeRefM "tienda") c
  let c := reSubDel (storeRefM "store") c
  let c := reSubDel (storeRefM "sucursal") c
  let c := reSubDel hashNumM c
  let c := frasesRemover.foldl (fun acc m => reSubDel m acc) c
  let c := pyStrip (collapseWs c)
  pyStrip (stripLeadArt c)

/-- Embedding of `SlackHandler._extract_search_term`. -/
def extractSearchTerm (text : String) : Option String :=
  if text.data.isEmpty then none
  else
    let cleaned := searchTermResidue text
    if cleaned.length > 2 then some cleaned else none

/-- A search capability answering the query `"PANELA"` with a candidate
list that is *not* sorted descending by similarity. -/
def unsortedCapability : String → List ProductMatch :=
  fun q =>
    if q = "PANELA" then
      [{ nombre := "LOW", precio := 10, score := 0 },
       { nombre := "HIGH", precio := 20, score := 1 }]
    else []

def c2Product : ExtractedProduct := { nombre := some "PANELA", precio := some 10 }

/-- A capability that fails on the query `"ACEITE"` and succeeds elsewhere. -/
def failingCapability : String → Except String (List ProductMatch) :=
  fun q =>
    if q = "ACEITE" then Except.error "search failed" else Except.ok []

def c8ProductA : ExtractedProduct := { nombre := some "HARINA", precio := some 20 }

def c8ProductB : ExtractedProduct := { nombre := some "ACEITE", precio := some 50 }

def c10Product : ExtractedProduct := { nombre := some "REFRESCO", precio := none }

/-- The single validation result produced for `c10Product` against an empty
catalog. -/
def c10Result : ValidationResult :=
  mkResult defaultTolerance (lookupResults (fun _ => []) ["REFRESCO"]) c10Product

/-- The common loop shape of both deduplication routines: drop elements
satisfying `drop`, keep the first occurrence of each key. -/
def firstOccAux (drop : α → Bool) (key : α → String) (seen : List String) :
    List α → List α
  | [] => []
  | x :: rest =>
    if drop x then
      firstOccAux drop key seen rest
    else if key x ∈ seen then
      firstOccAux drop key seen rest
    else
      x :: firstOccAux drop key (key x :: seen) rest

end Patricia

namespace Patricia

/-! # Theorems -/

/-! ## Generic first-occurrence deduplication lemmas -/

theorem mem_firstOccAux {drop : α → Bool} {key : α → String}
    {l : List α} :
    ∀ {seen : List String} {x : α}, x ∈ firstOccAux drop key seen l →
      drop x = false ∧ key x ∉ seen ∧ x ∈ l := by
  induction l with
  | nil => intro seen x h; simp [firstOccAux] at h
  | cons q rest ih =>
    intro seen x h
    simp only [firstOccAux] at h
    split at h
    · obtain ⟨h1, h2, h3⟩ := ih h
      exact ⟨h1, h2, List.mem_cons_of_mem _ h3⟩
    · split at h
      · obtain ⟨h1, h2, h3⟩ := ih h
        exact ⟨h1, h2, List.mem_cons_of_mem _ h3⟩
      · rcases List.mem_cons.mp h with rfl | hmem
        · refine ⟨by simp_all, by assumption, List.mem_cons_self _ _⟩
        · obtain ⟨h1, h2, h3⟩ := ih hmem
          exact ⟨h1, fun hk => h2 (List.mem_cons_of_mem _ hk),
            List.mem_cons_of_mem _ h3⟩

theorem firstOccAux_sublist (drop : α → Bool) (key : α → String)
    (l : List α) : ∀ seen, List.Sublist (firstOccAux drop key seen l) l := by
  induction l with
  | nil => intro seen; simp [firstOccAux]
  | cons q rest ih =>
    intro seen
    simp only [firstOccAux]
    split
    · exact (ih seen).cons q
    · split
      · exact (ih seen).cons q
      · exact (ih (key q :: seen)).cons₂ q

theorem firstOccAux_keys_nodup (drop : α → Bool) (key : α → String)
    (l : List α) :
    ∀ seen, ((firstOccAux drop key seen l).map key).Nodup := by
  induction l with
  | nil => intro seen; simp [firstOccAux]
  | cons q rest ih =>
    intro seen
    simp only [firstOccAux]
    split
    · exact ih seen
    · split
      · exact ih seen
      · simp only [List.map_cons, List.nodup_cons]
        refine ⟨?_, ih (key q :: seen)⟩
        intro hmem
        obtain ⟨p, hp, hkey⟩ := List.mem_map.mp hmem
        exact (mem_firstOccAux hp).2.1 (by rw [hkey]; exact List.mem_cons_self _ _)

theorem firstOccAux_fixed {drop : α → Bool} {key : α → String}
    {m : List α} :
    ∀ {seen : List String},
      (∀ x ∈ m, drop x = false ∧ key x ∉ seen) →
      (m.map key).Nodup → firstOccAux drop key seen m = m := by
  induction m with
  | nil => intro _ _ _; rfl
  | cons q rest ih =>
    intro seen h1 h2
    have hq := h1 q (List.mem_cons_self _ _)
    simp only [firstOccAux]
    rw [if_neg (by simp [hq.1]), if_neg hq.2]
    congr 1
    apply ih
    · intro p hp
      have hpv := h1 p (List.mem_cons_of_mem _ hp)
      refine ⟨hpv.1, ?_⟩
      intro hk
      rcases List.mem_cons.mp hk with heq | hmem
      · have : key q ∈ rest.map key := by
          rw [← heq]; exact List.mem_map_of_mem key hp
        exact (List.nodup_cons.mp (by simpa using h2)).1 this
      · exact hpv.2 hmem
    · exact (List.nodup_cons.mp (by simpa using h2)).2

/-- Every surviving element is the first element of the input that is kept
and has its key. -/
theorem firstOccAux_head {drop : α → Bool} {key : α → String}
    {l : List α} :
    ∀ {seen : List String} {x : α}, x ∈ firstOccAux drop key seen l →
      (l.filter (fun y => !drop y && (key y == key x))).head? = some x := by
  induction l with
  | nil => intro seen x h; simp [firstOccAux] at h
  | cons q rest ih =>
    intro seen x h
    simp only [firstOccAux] at h
    split at h
    · rename_i hdrop
      rw [List.filter_cons_of_neg (by simp [hdrop])]
      exact ih h
    · split at h
      · rename_i hdrop hseen
        have hx := mem_firstOccAux h
        have hne : key q ≠ key x := by
          intro he; exact hx.2.1 (he ▸ hseen)
        rw [List.filter_cons_of_neg (by simp [hne])]
        exact ih h
      · rename_i hdrop hseen
        rcases List.mem_cons.mp h with rfl | hmem
        · rw [List.filter_cons_of_pos (by simp_all)]
          rfl
        · have hx := mem_firstOccAux hmem
          have hne : key q ≠ key x := by
            intro he
            exact hx.2.1 (he ▸ List.mem_cons_self _ _)
          rw [List.filter_cons_of_neg (by simp [hne])]
          exact ih hmem

/-- Every kept input element's key is represented in the output. -/
theorem firstOccAux_covers {drop : α → Bool} {key : α → String}
    {l : List α} :
    ∀ {seen : List String} {x : α}, x ∈ l → drop x = false → key x ∉ seen →
      ∃ y ∈ firstOccAux drop key seen l, key y = key x := by
  induction l with
  | nil => intro seen x h; simp at h
  | cons q rest ih =>
    intro seen x hx hdx hkx
    simp only [firstOccAux]
    split
    · rename_i hdq
      rcases List.mem_cons.mp hx with rfl | hmem
      · rw [hdx] at hdq; cases hdq
      · exact ih hmem hdx hkx
    · split
      · rename_i hdq hsq
        rcases List.mem_cons.mp hx with rfl | hmem
        · exact absurd hsq hkx
        · exact ih hmem hdx hkx
      · rename_i hdq hsq
        rcases List.mem_cons.mp hx with rfl | hmem
        · exact ⟨x, List.mem_cons_self _ _, rfl⟩
        · by_cases hkq : key x = key q
          · exact ⟨q, List.mem_cons_self _ _, hkq.symm⟩
          · obtain ⟨y, hy, hky⟩ := ih hmem hdx
              (by
                intro hk
                rcases List.mem_cons.mp hk with heq | hm
                · exact hkq heq
                · exact hkx hm)
            exact ⟨y, List.mem_cons_of_mem _ hy, hky⟩

/-! ## Bridges from the two concrete dedup loops to the generic one -/

theorem dedupProductsAux_eq (l : List RawProduct) :
    ∀ seen, dedupProductsAux seen l =
      firstOccAux (fun p => sentinelName (prodNorm p)) prodKey seen l := by
  induction l with
  | nil => intro seen; rfl
  | cons q rest ih =>
    intro seen
    simp only [dedupProductsAux, firstOccAux, prodNorm, prodKey]
    split
    · exact ih seen
    · split
      · exact ih seen
      · rw [ih]
        rfl

theorem dedupResultsAux_eq (l : List ValidationResult) :
    ∀ seen, dedupResultsAux seen l =
      firstOccAux (fun v => resultKeySkip (resultKey v)) resultKey seen l := by
  induction l with
  | nil => intro seen; rfl
  | cons q rest ih =>
    intro seen
    simp only [dedupResultsAux, firstOccAux]
    split
    · exact ih seen
    · split
      · exact ih seen
      · rw [ih]

/-! ## Price comparison lemmas -/

theorem ratAbs_eq_abs (q : ℚ) : ratAbs q = |q| := by
  rcases lt_or_ge q 0 with h | h
  · rw [abs_of_neg h]; simp [ratAbs, h]
  · rw [abs_of_nonneg h]; simp [ratAbs, not_lt.mpr h]

theorem pricesMatch_iff (tol x y : ℚ) :
    pricesMatch tol x y = true ↔
      (if y = 0 then x = 0 else |x - y| / y ≤ tol) := by
  by_cases hy : y = 0 <;> simp [pricesMatch, hy, ratAbs_eq_abs]

/-- C1: price-agreement classification is totally determined: an absent
price on either side yields `NO_PRICE`; with both present the difference is
`matched - source`, the status is `MATCH` exactly under the zero-aware
relative-tolerance test and `PRICE_DIFF` otherwise; at the default 5%
tolerance, `matched = 100, source = 105` is `MATCH` (the boundary) and
`source = 105.01` is `PRICE_DIFF`. -/
theorem claim_C1_price_classification (tol x y : ℚ) :
    (comparePrices tol none (some y)).status = "NO_PRICE"
    ∧ (comparePrices tol (some x) none).status = "NO_PRICE"
    ∧ (comparePrices tol none none).status = "NO_PRICE"
    ∧ (comparePrices tol (some x) (some y)).diferencia = some (y - x)
    ∧ ((comparePrices tol (some x) (some y)).status = "MATCH" ↔
        (if y = 0 then x = 0 else |x - y| / y ≤ tol))
    ∧ ((comparePrices tol (some x) (some y)).status = "PRICE_DIFF" ↔
        ¬ (if y = 0 then x = 0 else |x - y| / y ≤ tol))
    ∧ (comparePrices defaultTolerance (some 105) (some 100)).status = "MATCH"
    ∧ (comparePrices defaultTolerance (some (10501 / 100)) (some 100)).status
        = "PRICE_DIFF" := by
  have hboundary : pricesMatch defaultTolerance 105 100 = true := by
    rw [pricesMatch_iff, if_neg (by norm_num)]
    rw [show |(105 : ℚ) - 100| = 5 by norm_num]
    norm_num [defaultTolerance, PRICE_TOLERANCE_PERCENT]
  have hover : pricesMatch defaultTolerance (10501 / 100) 100 = false := by
    rw [Bool.eq_false_iff]
    rw [Ne, pricesMatch_iff, if_neg (by norm_num : ¬ (100 : ℚ) = 0)]
    rw [show |(10501 / 100 : ℚ) - 100| = 501 / 100 by norm_num]
    norm_num [defaultTolerance, PRICE_TOLERANCE_PERCENT]
  refine ⟨rfl, rfl, rfl, ?_, ?_, ?_,
    by simp [comparePrices, hboundary], by simp [comparePrices, hover]⟩
  · by_cases h : pricesMatch tol x y <;> simp [comparePrices, h]
  · rw [← pricesMatch_iff]
    by_cases h : pricesMatch tol x y <;> simp [comparePrices, h]
  · rw [← pricesMatch_iff]
    by_cases h : pricesMatch tol x y <;> simp [comparePrices, h]

/-! ## Deduplication claims -/

/-- C5: both deduplication routines are idempotent. -/
theorem claim_C5_dedup_idempotent (products : List RawProduct)
    (validaciones : List ValidationResult) :
    dedupProducts (dedupProducts products) = dedupProducts products
    ∧ dedupResults (dedupResults validaciones) = dedupResults validaciones := by
  constructor
  · unfold dedupProducts
    rw [dedupProductsAux_eq, dedupProductsAux_eq]
    apply firstOccAux_fixed
    · intro x hx
      exact ⟨(mem_firstOccAux hx).1, by simp⟩
    · exact firstOccAux_keys_nodup _ _ _ []
  · unfold dedupResults
    rw [dedupResultsAux_eq, dedupResultsAux_eq]
    apply firstOccAux_fixed
    · intro x hx
      exact ⟨(mem_firstOccAux hx).1, by simp⟩
    · exact firstOccAux_keys_nodup _ _ _ []

/-- C6 counterexample: the record named `"NO  VISIBLE"` (two internal
spaces) has canonical name `"NO VISIBLE"`, one of the claimed sentinels, yet
`_deduplicate_products` keeps it: the code tests the sentinel against the
upper-cased, trimmed name *before* collapsing whitespace runs. -/
theorem claim_C6_counterexample :
    specCanonicalName c6Record.nombre = "NO VISIBLE"
    ∧ dedupProducts [c6Record] = [c6Record] :=
  ⟨rfl, rfl⟩

/-- C6 (amended): deduplication returns a subsequence of the input (hence
output length ≤ input length, order preserved); it drops exactly the records
whose upper-cased trimmed (not whitespace-collapsed) name is empty or a
sentinel; surviving keys (whitespace-collapsed names) are pairwise distinct,
every kept input name is represented, and each survivor is the first kept
input record bearing its key. -/
theorem claim_C6_amended (l : List RawProduct) :
    List.Sublist (dedupProducts l) l
    ∧ (dedupProducts l).length ≤ l.length
    ∧ (∀ p ∈ dedupProducts l, sentinelName (prodNorm p) = false)
    ∧ ((dedupProducts l).map prodKey).Nodup
    ∧ (∀ p ∈ l, sentinelName (prodNorm p) = false →
        ∃ q ∈ dedupProducts l, prodKey q = prodKey p)
    ∧ (∀ p ∈ dedupProducts l,
        (l.filter
          (fun y => !sentinelName (prodNorm y) && (prodKey y == prodKey p))).head?
          = some p) := by
  unfold dedupProducts
  rw [dedupProductsAux_eq]
  refine ⟨?sub, ?len, ?drop, ?keys, ?cov, ?head⟩
  · exact firstOccAux_sublist _ _ _ []
  · exact (firstOccAux_sublist _ _ _ []).length_le
  · intro p hp
    exact (mem_firstOccAux hp).1
  · exact firstOccAux_keys_nodup _ _ _ []
  · intro p hp hdrop
    exact firstOccAux_covers hp hdrop (by simp)
  · intro p hp
    exact firstOccAux_head hp

/-- Witness for C6 (amended): instantiated on the singleton list holding the
record named `"HARINA"`, which survives and is its own first occurrence. -/
theorem claim_C6_amended_witness :
    ([plainRecord].filter
      (fun y =>
        !sentinelName (prodNorm y) && (prodKey y == prodKey plainRecord))).head?
      = some plainRecord :=
  (claim_C6_amended [plainRecord]).2.2.2.2.2 plainRecord
    (List.mem_cons_self plainRecord [])

/-! ## Structured-extraction recovery claims -/

theorem pyIter_error {j : Json} {e : String} (h : pyIter j = Except.error e) :
    e = "TypeError" := by
  cases j <;> simp [pyIter] at h
  all_goals exact h.symm

theorem flattenSection_error {s : Json} {e : String}
    (h : flattenSection s = Except.error e) : e = "TypeError" := by
  cases s with
  | obj kvs =>
    simp only [flattenSection] at h
    split at h
    · rename_i e' he'
      have heq : e' = e := by simpa using h
      exact heq.symm.trans (pyIter_error he')
    · exact absurd h (by simp)
  | null => simp [flattenSection] at h
  | bool b => simp [flattenSection] at h
  | num q => simp [flattenSection] at h
  | str s => simp [flattenSection] at h
  | arr xs => simp [flattenSection] at h

theorem flattenAll_error : ∀ (d : List Json) (e : String),
    flattenAll d = Except.error e → e = "TypeError" := by
  intro d
  induction d with
  | nil => intro e h; simp [flattenAll] at h
  | cons s rest ih =>
    intro e h
    simp only [flattenAll] at h
    split at h
    · rename_i e' he'
      have heq : e' = e := by simpa using h
      exact heq.symm.trans (flattenSection_error he')
    · split at h
      · rename_i e' he'
        have heq : e' = e := by simpa using h
        exact heq.symm.trans (ih _ he')
      · exact absurd h (by simp)

theorem flattenProduct_names {cat p : Json} {r : RawProduct}
    (h : r ∈ flattenProduct cat p) : r.nombre ≠ "" ∧ r.nombre ≠ "NULL" := by
  cases p <;> simp only [flattenProduct] at h
  case obj pkvs =>
    split at h
    · rename_i hcond
      rcases List.mem_cons.mp h with rfl | hmem
      · exact hcond
      · simp at hmem
    · simp at h
  all_goals simp at h

theorem flattenProducts_names {cat : Json} :
    ∀ {items : List Json} {r : RawProduct},
      r ∈ flattenProducts cat items → r.nombre ≠ "" ∧ r.nombre ≠ "NULL" := by
  intro items
  induction items with
  | nil => intro r h; simp [flattenProducts] at h
  | cons p rest ih =>
    intro r h
    simp only [flattenProducts] at h
    rcases List.mem_append.mp h with hl | hr
    · exact flattenProduct_names hl
    · exact ih hr

theorem flattenSection_names {s : Json} {l : List RawProduct}
    (h : flattenSection s = Except.ok l) :
    ∀ r ∈ l, r.nombre ≠ "" ∧ r.nombre ≠ "NULL" := by
  intro r hr
  cases s <;> simp only [flattenSection] at h
  case obj kvs =>
    split at h
    · exact absurd h (by simp)
    · rename_i items hitems
      obtain rfl : flattenProducts _ items = l := by simpa using h
      exact flattenProducts_names hr
  all_goals
    (obtain rfl : ([] : List RawProduct) = l := by simpa using h
     simp at hr)

theorem flattenAll_names : ∀ {d : List Json} {l : List RawProduct},
    flattenAll d = Except.ok l →
    ∀ r ∈ l, r.nombre ≠ "" ∧ r.nombre ≠ "NULL" := by
  intro d
  induction d with
  | nil =>
    intro l h r hr
    obtain rfl : ([] : List RawProduct) = l := by simpa [flattenAll] using h
    simp at hr
  | cons s rest ih =>
    intro l h r hr
    simp only [flattenAll] at h
    split at h
    · exact absurd h (by simp)
    · rename_i ps hps
      split at h
      · exact absurd h (by simp)
      · rename_i qs hqs
        obtain rfl : ps ++ qs = l := by simpa using h
        rcases List.mem_append.mp hr with hl | hr2
        · exact flattenSection_names hps r hl
        · exact ih hqs r hr2

/-- C3 counterexample: the recovery entry point is *not* total and does not
guarantee non-empty names.  On `c3TypeErrorInput` (valid JSON whose section
carries `productos: 5`) the flattening loop iterates a non-iterable and
raises `TypeError`; on `c3EmptyNameInput` the regex fallback returns a
record whose stripped name is the empty string. -/
theorem claim_C3_counterexample :
    parseGeminiResponse c3TypeErrorInput = Except.error "TypeError"
    ∧ parseGeminiResponse c3EmptyNameInput
        = Except.ok [{ nombre := "", precio := some 5,
                       presentacion := Json.str "",
                       categoria := Json.str "General",
                       observaciones := Json.null }] :=
  ⟨rfl, rfl⟩

/-- C3 (amended): the recovery entry point never raises anything except the
`TypeError` of iterating a non-iterable `productos` field of a successfully
parsed section; every record produced by the JSON flattening stages has a
non-empty name distinct from `"NULL"` (regex-recovered names may be empty
after stripping); and when both the direct parse and the truncation repair
fail, the result is exactly the regex extraction — the empty list when that
finds nothing. -/
theorem claim_C3_amended (s : String) (d : List Json) :
    (∀ e, parseGeminiResponse s = Except.error e → e = "TypeError")
    ∧ (∀ l, flattenAll d = Except.ok l →
        ∀ r ∈ l, r.nombre ≠ "" ∧ r.nombre ≠ "NULL")
    ∧ (jsonLoads (cleanResponseText s) = none →
        repairTruncatedJson (cleanResponseText s) = none →
        parseGeminiResponse s
          = Except.ok (extractProductsRegex (cleanResponseText s))) := by
  refine ⟨?_, ?_, ?_⟩
  · intro e h
    simp only [parseGeminiResponse] at h
    split at h
    · exact absurd h (by simp)
    · exact flattenAll_error _ _ h
    · split at h
      · exact flattenAll_error _ _ h
      · exact absurd h (by simp)
  · intro l h
    exact flattenAll_names h
  · intro h1 h2
    simp only [parseGeminiResponse]
    rw [h1, h2]

/-- Witness for C3 (amended): on plain non-JSON text both structured stages
fail and the result is the (here empty) regex extraction. -/
theorem claim_C3_amended_witness :
    parseGeminiResponse "not json"
      = Except.ok (extractProductsRegex (cleanResponseText "not json")) :=
  (claim_C3_amended "not json" []).2.2 rfl rfl

/-- C4: on the truncated fixture (cut mid-token inside the second record)
extraction returns without raising exactly the complete `"X"` record at
price `1.0`; the incomplete `"Y"` record is absent.  (In this code path the
bracket-balance and truncation repairs both produce invalid JSON, and the
regex fallback recovers the record.) -/
theorem claim_C4_truncated_recovery :
    parseGeminiResponse c4Input = Except.ok [c4XRecord]
    ∧ c4XRecord.nombre = "X" ∧ c4XRecord.precio = some 1 :=
  ⟨rfl, rfl, rfl⟩

/-! ## Intent parser claims -/

/-- C7: a message from which a store identifier is extractable is never
classified as a greeting/help request, whatever greeting tokens it
contains; in particular `"tienda 810 ayuda"` is not a greeting despite the
help keyword `"ayuda"`. -/
theorem claim_C7_store_overrides_greeting (text : String) :
    ((extractTiendaId text).isSome → isGreetingOrHelp text = false)
    ∧ extractTiendaId "tienda 810 ayuda" = some 810
    ∧ isGreetingOrHelp "tienda 810 ayuda" = false := by
  refine ⟨?_, by decide, by decide⟩
  intro h
  simp [isGreetingOrHelp, h]

/-- Witness for C7: the store-id hypothesis discharged on the concrete
message `"tienda 810 ayuda"`. -/
theorem claim_C7_store_overrides_greeting_witness :
    isGreetingOrHelp "tienda 810 ayuda" = false :=
  (claim_C7_store_overrides_greeting "tienda 810 ayuda").1 (by decide)

/-- C9 counterexample: on the claimed input the extractor returns
`"¿Harina en la ?"`, not the case-normalized `"HARINA"`: the code never
upper-cases the residue and leaves punctuation and connective words that are
not in its filler list. -/
theorem claim_C9_counterexample :
    extractSearchTerm "¿Cuál es el precio de la Harina en la tienda 100?"
      = some "¿Harina en la ?"
    ∧ some "¿Harina en la ?" ≠ some ("HARINA" : String) :=
  ⟨by decide, by decide⟩

/-- C9 (amended): on the claimed input the parser extracts store id 100 and
the raw residue `"¿Harina en la ?"` (filler phrase and store reference
stripped, no case normalization — the caller upper-cases only when issuing
the search); and for every text the phrase is reported absent whenever the
cleaned residue has length at most 2. -/
theorem claim_C9_amended (text : String) :
    extractTiendaId "¿Cuál es el precio de la Harina en la tienda 100?"
      = some 100
    ∧ extractSearchTerm "¿Cuál es el precio de la Harina en la tienda 100?"
        = some "¿Harina en la ?"
    ∧ ((searchTermResidue text).length ≤ 2 → extractSearchTerm text = none) := by
  refine ⟨by decide, by decide, ?_⟩
  intro h
  simp only [extractSearchTerm]
  split
  · rfl
  · rw [if_neg (by omega)]

/-- Witness for C9 (amended): the two-character message `"el"` yields no
search phrase. -/
theorem claim_C9_amended_witness : extractSearchTerm "el" = none :=
  (claim_C9_amended "el").2.2 (by decide)

/-! ## Validation engine claims -/

/-- C2 counterexample: on an unsorted candidate list the engine classifies
against the *first* candidate (score 0), even though the capability also
returned a candidate with strictly larger similarity (score 1): there is no
defensive sort before selecting. -/
theorem claim_C2_counterexample :
    (validateProductsPure defaultTolerance unsortedCapability [c2Product]).map
        (fun r => (r.producto_sistema, r.match_score))
      = [(some "LOW", some 0)]
    ∧ ({ nombre := "HIGH", precio := 20, score := 1 } : ProductMatch)
        ∈ unsortedCapability "PANELA"
    ∧ ((0 : ℚ) < 1) :=
  ⟨rfl, by decide, by decide⟩

/-- C2 (amended): `validate_products` returns one result per product in
input order; a product whose candidate list is empty is `NOT_FOUND`;
otherwise it is classified against the *first* candidate of the returned
list (no defensive sort) — which is a maximal-similarity candidate whenever
the list is sorted descending by score. -/
theorem claim_C2_amended (tol : ℚ) (search : String → List ProductMatch)
    (productos : List ExtractedProduct) :
    (validateProductsPure tol search productos).length = productos.length
    ∧ (∀ i : Nat, (validateProductsPure tol search productos)[i]?
        = (productos[i]?).map
            (mkResult tol
              (lookupResults search (productos.map (fun p => p.nombre.getD "")))))
    ∧ (∀ (p : ExtractedProduct) (results : String → List ProductMatch),
        results (p.nombre.getD "DESCONOCIDO") = [] →
          (mkResult tol results p).status = "NOT_FOUND"
          ∧ (mkResult tol results p).producto_sistema = none)
    ∧ (∀ (p : ExtractedProduct) (results : String → List ProductMatch)
        (m : ProductMatch) (ms : List ProductMatch),
        results (p.nombre.getD "DESCONOCIDO") = m :: ms →
          (mkResult tol results p).producto_sistema = some m.nombre
          ∧ (mkResult tol results p).precio_sistema = some m.precio
          ∧ (mkResult tol results p).match_score = some m.score
          ∧ (mkResult tol results p).status
              = (comparePrices tol p.precio (some m.precio)).status)
    ∧ (∀ (m : ProductMatch) (ms : List ProductMatch),
        List.Pairwise (fun a b : ProductMatch => b.score ≤ a.score) (m :: ms) →
        ∀ m' ∈ m :: ms, m'.score ≤ m.score) := by
  refine ⟨?len, ?idx, ?nf, ?first, ?srt⟩
  · simp [validateProductsPure]
  · intro i
    simp [validateProductsPure, List.getElem?_map]
  · intro p results h
    simp [mkResult, h]
  · intro p results m ms h
    simp [mkResult, h]
  · intro m ms hpw m' hm'
    rcases List.mem_cons.mp hm' with rfl | hm
    · exact le_refl _
    · exact (List.pairwise_cons.mp hpw).1 m' hm

/-- Witness for C2 (amended): a product with no surviving candidates is
reported `NOT_FOUND`. -/
theorem claim_C2_amended_witness :
    (mkResult defaultTolerance (fun _ => []) c8ProductB).status = "NOT_FOUND" :=
  ((claim_C2_amended defaultTolerance (fun _ => []) []).2.2.1 c8ProductB
    (fun _ => []) rfl).1

/-- C8 counterexample: with a capability failing on the second query, the
whole batch call returns an error — the first product gets no validation
result, contradicting the claimed per-query isolation. -/
theorem claim_C8_counterexample :
    validateProducts defaultTolerance failingCapability [c8ProductA, c8ProductB]
      = Except.error "search failed" :=
  rfl

theorem searchBatchE_error_of_mem
    {search : String → Except String (List ProductMatch)} :
    ∀ {l : List String}, (∃ q ∈ l, ∃ e, search q = Except.error e) →
      ∃ e, searchBatchE search l = Except.error e := by
  intro l
  induction l with
  | nil => rintro ⟨q, hq, _⟩; simp at hq
  | cons a rest ih =>
    rintro ⟨q, hq, e, he⟩
    rcases List.mem_cons.mp hq with rfl | hmem
    · exact ⟨e, by simp [searchBatchE, he]⟩
    · cases ha : search a with
      | error e' => exact ⟨e', by simp [searchBatchE, ha]⟩
      | ok hits =>
        obtain ⟨e', he'⟩ := ih ⟨q, hmem, e, he⟩
        exact ⟨e', by simp [searchBatchE, ha, he']⟩

theorem searchBatchE_ok_map (s : String → List ProductMatch) :
    ∀ l : List String,
      searchBatchE (fun q => Except.ok (s q)) l
        = Except.ok (l.map (fun q => (q, s q))) := by
  intro l
  induction l with
  | nil => rfl
  | cons a rest ih => simp [searchBatchE, ih]

theorem lookup_map_self (s : String → List ProductMatch) (k : String) :
    ∀ m : List String,
      (m.map (fun q => (q, s q))).lookup k
        = if k ∈ m then some (s k) else none := by
  intro m
  induction m with
  | nil => simp [List.lookup]
  | cons a rest ih =>
    by_cases hka : k = a
    · subst hka
      simp [List.lookup]
    · simp [List.lookup, beq_false_of_ne hka, ih, hka]

theorem tableGet_map (s : String → List ProductMatch) (l : List String)
    (k : String) :
    tableGet (l.map (fun q => (q, s q))) k = lookupResults s l k := by
  unfold tableGet lookupResults
  rw [← List.map_reverse, lookup_map_self]
  by_cases hk : k ∈ l
  · rw [if_pos (List.mem_reverse.mpr hk), if_pos hk]
    rfl
  · rw [if_neg (fun h => hk (List.mem_reverse.mp h)), if_neg hk]
    rfl

/-- C8 (amended): a capability failure for any query of the batch makes the
whole `validate_products` call fail with that capability error — no partial
results are produced; with a never-failing capability the call returns the
pure per-product results. -/
theorem claim_C8_amended (tol : ℚ)
    (search : String → Except String (List ProductMatch))
    (s : String → List ProductMatch) (productos : List ExtractedProduct) :
    ((∃ q ∈ productos.map (fun p => p.nombre.getD ""), ∃ e,
        search q = Except.error e) →
      ∃ e, validateProducts tol search productos = Except.error e)
    ∧ validateProducts tol (fun q => Except.ok (s q)) productos
        = Except.ok (validateProductsPure tol s productos) := by
  constructor
  · intro h
    obtain ⟨e, he⟩ := searchBatchE_error_of_mem h
    exact ⟨e, by simp [validateProducts, he]⟩
  · have htab : tableGet ((productos.map (fun p => p.nombre.getD "")).map
        (fun q => (q, s q)))
        = lookupResults s (productos.map (fun p => p.nombre.getD "")) :=
      funext (tableGet_map s (productos.map (fun p => p.nombre.getD "")))
    simp only [validateProducts, validateProductsPure, searchBatchE_ok_map, htab]

/-- Witness for C8 (amended): the failing two-product batch of the
counterexample scenario indeed surfaces a capability error. -/
theorem claim_C8_amended_witness :
    ∃ e, validateProducts defaultTolerance failingCapability
      [c8ProductA, c8ProductB] = Except.error e :=
  (claim_C8_amended defaultTolerance failingCapability (fun _ => [])
      [c8ProductA, c8ProductB]).1
    ⟨"ACEITE", by decide, "search failed", rfl⟩

theorem comparePrices_coupling (tol : ℚ) (pi ps : Option ℚ) :
    ((comparePrices tol pi ps).validacion = "✅"
      ↔ (comparePrices tol pi ps).status = "MATCH")
    ∧ ((comparePrices tol pi ps).validacion = "❌"
      ↔ (comparePrices tol pi ps).status = "PRICE_DIFF")
    ∧ ((comparePrices tol pi ps).validacion = "⚠️"
      ↔ (comparePrices tol pi ps).status = "NO_PRICE")
    ∧ (comparePrices tol pi ps).status ≠ "NOT_FOUND" := by
  rcases pi with _ | x
  · rcases ps with _ | y <;>
      exact ⟨by simp [comparePrices], by simp [comparePrices],
        by simp [comparePrices], by simp [comparePrices]⟩
  · rcases ps with _ | y
    · exact ⟨by simp [comparePrices], by simp [comparePrices],
        by simp [comparePrices], by simp [comparePrices]⟩
    · by_cases h : pricesMatch tol x y
      · rw [show comparePrices tol (some x) (some y)
            = { validacion := "✅", diferencia := some (y - x),
                status := "MATCH" } by simp [comparePrices, h]]
        exact ⟨by simp, by simp, by simp, by simp⟩
      · rw [show comparePrices tol (some x) (some y)
            = { validacion := "❌", diferencia := some (y - x),
                status := "PRICE_DIFF" } by simp [comparePrices, h]]
        exact ⟨by simp, by simp, by simp, by simp⟩

theorem mkResult_coupling (tol : ℚ) (results : String → List ProductMatch)
    (p : ExtractedProduct) :
    ((mkResult tol results p).validacion = "✅"
      ↔ (mkResult tol results p).status = "MATCH")
    ∧ ((mkResult tol results p).validacion = "❌"
      ↔ (mkResult tol results p).status = "PRICE_DIFF")
    ∧ ((mkResult tol results p).validacion = "⚠️"
      ↔ ((mkResult tol results p).status = "NOT_FOUND"
          ∨ (mkResult tol results p).status = "NO_PRICE"))
    ∧ ((mkResult tol results p).status = "NOT_FOUND" →
        (mkResult tol results p).producto_sistema = none
        ∧ (mkResult tol results p).precio_sistema = none
        ∧ (mkResult tol results p).diferencia = none
        ∧ (mkResult tol results p).match_score = none) := by
  simp only [mkResult]
  cases hres : results (p.nombre.getD "DESCONOCIDO") with
  | nil =>
    exact ⟨by simp, by simp, by simp, fun _ => ⟨rfl, rfl, rfl, rfl⟩⟩
  | cons m ms =>
    have hc := comparePrices_coupling tol p.precio (some m.precio)
    refine ⟨hc.1, hc.2.1, ?_, ?_⟩
    · show (comparePrices tol p.precio (some m.precio)).validacion = "⚠️"
        ↔ ((comparePrices tol p.precio (some m.precio)).status = "NOT_FOUND"
            ∨ (comparePrices tol p.precio (some m.precio)).status = "NO_PRICE")
      rw [hc.2.2.1]
      constructor
      · exact Or.inr
      · rintro (hnf | hnp)
        · exact absurd hnf hc.2.2.2
        · exact hnp
    · intro hnf
      exact absurd hnf hc.2.2.2

/-- C10: every result couples its verdict symbol to its status (`✅` iff
`MATCH`, `❌` iff `PRICE_DIFF`, `⚠️` iff `NOT_FOUND` or `NO_PRICE`), and a
`NOT_FOUND` result carries no system product, price, difference or score. -/
theorem claim_C10_verdict_coupling (tol : ℚ)
    (search : String → List ProductMatch)
    (productos : List ExtractedProduct) :
    ∀ r ∈ validateProductsPure tol search productos,
      (r.validacion = "✅" ↔ r.status = "MATCH")
      ∧ (r.validacion = "❌" ↔ r.status = "PRICE_DIFF")
      ∧ (r.validacion = "⚠️" ↔ (r.status = "NOT_FOUND" ∨ r.status = "NO_PRICE"))
      ∧ (r.status = "NOT_FOUND" →
          r.producto_sistema = none ∧ r.precio_sistema = none
          ∧ r.diferencia = none ∧ r.match_score = none) := by
  intro r hr
  obtain ⟨p, _, rfl⟩ := List.mem_map.mp hr
  exact mkResult_coupling tol _ p

/-- Witness for C10: the `NOT_FOUND` result produced for `c10Product`
against an empty catalog satisfies the `⚠️` coupling. -/
theorem claim_C10_verdict_coupling_witness :
    c10Result.validacion = "⚠️"
      ↔ (c10Result.status = "NOT_FOUND" ∨ c10Result.status = "NO_PRICE") :=
  (claim_C10_verdict_coupling defaultTolerance (fun _ => []) [c10Product]
      c10Result (List.mem_cons_self c10Result [])).2.2.1

end Patricia
